import Mathlib

/-!
Shallow embedding of the framed request/response channel in
`Finance Server/network_channel.cpp`: the message codec
(`send_request`'s encode, the response decode, `send_response`'s encode,
`Request::parseRequest`), the length-prefixed framing over a stream
socket (partial `send`/`recv` modelled by explicit delivery schedules),
and the client-side connection construction.

Modelling conventions:
* a socket's incoming byte stream is a `List Nat` (`Bytes`) plus a
  schedule of receive events (`NetEv`): each `recv` call consumes one
  event, which either delivers up to `n` bytes from the stream, reports
  an error (`recv` returning `-1`), or reports orderly shutdown (`recv`
  returning `0`);
* each `send` call likewise consumes one `SendEv` (accept up to `n`
  bytes, or fail with `-1`);
* a function outcome of `none` means the schedule ran out while the code
  was still looping, i.e. the call is still blocked in the loop;
* the C++ `double` fields (`amount`, `balance`) are modelled on their
  integral fragment (`Int`), since IEEE floating point is outside the
  embedding; their rendering (`dblRender`) models the `ostream` default
  conversion at precision 6, including the rounded scientific notation
  used for magnitudes of a million and above; `stod` (`stodM`) parses
  sign, digits, an optional fraction and an optional exponent, truncating
  a non-integral value to its integral part (the only divergence from the
  real `stod` on this fragment), and returns `none` exactly where the
  real `stod` throws `std::invalid_argument` (no leading numeric text).
-/

/-! ### Decimal numerals: the model of `operator<<` on integers and of `stoi`/`stod` -/

/-- The decimal digit character for `d < 10` (as produced by the stream insertion). -/
def digitChar (d : Nat) : Char :=
  if d = 0 then '0' else if d = 1 then '1' else if d = 2 then '2'
  else if d = 3 then '3' else if d = 4 then '4' else if d = 5 then '5'
  else if d = 6 then '6' else if d = 7 then '7' else if d = 8 then '8'
  else if d = 9 then '9' else '*'

/-- Fuel-driven digit expansion of a natural number, most significant digit first.
`natRenderF fuel n` is the numeral of `n` whenever `n ≤ fuel` (and `[]` for `n = 0`). -/
def natRenderF : Nat → Nat → List Char
  | 0, _ => []
  | fuel + 1, n => if n = 0 then [] else natRenderF fuel (n / 10) ++ [digitChar (n % 10)]

/-- Decimal rendering of a natural number, as `std::ostream` prints it. -/
def natRender (n : Nat) : List Char :=
  if n = 0 then ['0'] else natRenderF (n + 1) n

/-- Decimal rendering of an integer, as `std::ostream` prints `int` (and the
integral fragment of `double`). -/
def intRender : Int → List Char
  | Int.ofNat n => natRender n
  | Int.negSucc m => '-' :: natRender (m + 1)

/-- Value of a digit string (most significant first). -/
def digitsVal (l : List Char) : Nat :=
  l.foldl (fun a c => 10 * a + (c.toNat - 48)) 0

/-- Drop the trailing `'0'` digits of a mantissa, as `%g` formatting does. -/
def dropTrailZeros (l : List Char) : List Char :=
  (l.reverse.dropWhile (fun c => c = '0')).reverse

/-- Exponent field of scientific notation: at least two digits (`e+06`). -/
def expRender (e : Nat) : List Char :=
  if e < 10 then '0' :: natRender e else natRender e

/-- The rounded scientific rendering `d.ddddde+XX` that the `ostream`
default (`%g`, precision 6) uses for an integral magnitude of a million or
more: round to 6 significant digits (ties to even), renormalize if the
rounding carries, drop trailing zeros of the mantissa. -/
def dblSci (m : Nat) : List Char :=
  let d := (natRender m).length
  let e := d - 1
  let h := 10 ^ (d - 6)
  let q := m / h
  let rem := m % h
  let r := if 2 * rem > h then q + 1
           else if 2 * rem < h then q
           else if q % 2 = 0 then q else q + 1
  let e2 := if r = 1000000 then e + 1 else e
  let r2 := if r = 1000000 then 100000 else r
  match dropTrailZeros (natRender r2) with
  | [] => []
  | c :: cs =>
    c :: (if cs = [] then [] else '.' :: cs) ++ 'e' :: '+' :: expRender e2

/-- Rendering of an integral `double` by the `ostream` default (`%g`,
precision 6): plain digits below a million, rounded scientific notation
from a million up — `1234567.0` prints as `"1.23457e+06"`. -/
def dblRender (v : Int) : List Char :=
  match v with
  | Int.ofNat n => if n < 1000000 then natRender n else dblSci n
  | Int.negSucc m =>
    '-' :: (if m + 1 < 1000000 then natRender (m + 1) else dblSci (m + 1))

/-- The exponent part of a numeral: `e`/`E`, an optional sign and digits.
`0` when absent — also when `e` is not followed by a digit, since `strtod`
then backtracks and leaves the mantissa value unchanged. -/
def expOf (s : List Char) : Int :=
  if s.head? = some 'e' ∨ s.head? = some 'E' then
    let u := s.tail
    if u.head? = some '-' then
      let D := u.tail.takeWhile Char.isDigit
      if D = [] then 0 else -(digitsVal D : Int)
    else if u.head? = some '+' then
      let D := u.tail.takeWhile Char.isDigit
      if D = [] then 0 else (digitsVal D : Int)
    else
      let D := u.takeWhile Char.isDigit
      if D = [] then 0 else (digitsVal D : Int)
  else 0

/-- The unsigned part of the `std::stod` model: leading digits, an optional
`.` with further digits, and an optional exponent.  The exact value is
`I.F × 10^X`; a non-integral value is truncated to its integral part
(the model keeps only integral doubles).  `none` when there is no leading
digit at all, modelling the thrown `std::invalid_argument`. -/
def stodMag (t1 : List Char) : Option Int :=
  let I := t1.takeWhile Char.isDigit
  let t2 := t1.dropWhile Char.isDigit
  let F := if t2.head? = some '.' then t2.tail.takeWhile Char.isDigit else []
  let t3 := if t2.head? = some '.' then t2.tail.dropWhile Char.isDigit else t2
  if I = [] ∧ F = [] then none
  else
    let M := digitsVal (I ++ F)
    let t : Int := expOf t3 - F.length
    some (if 0 ≤ t then (M : Int) * 10 ^ t.toNat else ((M / 10 ^ (-t).toNat : Nat) : Int))

/-- Model of `std::stod`/`std::stoi` on the integral-double fragment: an
optional sign, then digits with optional fraction and exponent (trailing
non-numeric text is ignored, as the real functions do).  `none` models the
thrown `std::invalid_argument` when no conversion can be performed. -/
def stodM (s : List Char) : Option Int :=
  if s.head? = some '-' then (stodMag s.tail).map (fun v => -v)
  else if s.head? = some '+' then stodMag s.tail
  else stodMag s

/-! ### Delimiter splitting: the model of `find` / `substr` / `erase` -/

/-- Split a character list at the first occurrence of `d`:
`some (before, after)` when `d` occurs, `none` otherwise.  This is the
`find`/`substr(0,pos)`/`erase(0,pos+1)` step of the C++ decoders. -/
def splitFirstOn (d : Char) : List Char → Option (List Char × List Char)
  | [] => none
  | c :: cs =>
    if c = d then some ([], cs)
    else (splitFirstOn d cs).map (fun p => (c :: p.1, p.2))

/-- Split at the first `'|'` field delimiter. -/
def splitFirst (s : List Char) : Option (List Char × List Char) :=
  splitFirstOn '|' s

/-! ### The records and the codec -/

/-- Modelled from the spec: the request operation enum of the missing header
(`DEPOSIT, WITHDRAW, BALANCE, UPLOAD, DOWNLOAD, QUIT`), with the underlying
`int` values in declaration order. -/
inductive ReqType
  | DEPOSIT
  | WITHDRAW
  | BALANCE
  | UPLOAD
  | DOWNLOAD
  | QUIT
deriving DecidableEq

/-- The `static_cast<int>` of a request type. -/
def typeInt : ReqType → Int
  | ReqType.DEPOSIT => 0
  | ReqType.WITHDRAW => 1
  | ReqType.BALANCE => 2
  | ReqType.UPLOAD => 3
  | ReqType.DOWNLOAD => 4
  | ReqType.QUIT => 5

/-- Modelled from the spec: recovery of the enum from its integer value
(out-of-range values fall back to `QUIT`). -/
def typeOfInt (n : Int) : ReqType :=
  if n = 0 then ReqType.DEPOSIT else if n = 1 then ReqType.WITHDRAW
  else if n = 2 then ReqType.BALANCE else if n = 3 then ReqType.UPLOAD
  else if n = 4 then ReqType.DOWNLOAD else ReqType.QUIT

/-- Modelled from the spec: the `Request` record of the missing header
(`type, user_id, amount, filename, data`).  `amount` is a C++ `double`,
modelled on its exactly-rendered integral fragment. -/
structure Request where
  type : ReqType
  user_id : Int
  amount : Int
  filename : List Char
  data : List Char
deriving DecidableEq

/-- Modelled from the spec: the `Response` record of the missing header
(`success, balance, data, message`), constructor argument order as used by
`Response(false, 0, "", "Send failed")`.  `balance` is a C++ `double`,
modelled on its exactly-rendered integral fragment. -/
structure Response where
  success : Bool
  balance : Int
  data : List Char
  message : List Char
deriving DecidableEq

/-- Modelled from the spec: the sentinel `Request(QUIT)` returned by
`receive_request` on I/O failure (remaining fields default). -/
def quitReq : Request :=
  { type := ReqType.QUIT, user_id := 0, amount := 0, filename := [], data := [] }

/-- The encoding built by `send_request` lines 204-211:
`TYPE|USER_ID|AMOUNT|FILENAME|DATA`. -/
def encodeRequest (q : Request) : List Char :=
  intRender (typeInt q.type) ++ '|' ::
    (intRender q.user_id ++ '|' ::
      (dblRender q.amount ++ '|' ::
        (q.filename ++ '|' :: q.data)))

/-- The encoding built by `send_response` lines 355-359:
`SUCCESS|BALANCE|DATA|MESSAGE` with success rendered `"1"`/`"0"`. -/
def encodeResponse (r : Response) : List Char :=
  (if r.success then ['1'] else ['0']) ++ '|' ::
    (dblRender r.balance ++ '|' ::
      (r.data ++ '|' :: r.message))

/-- The response decode of `send_request` lines 274-296: three sequential
`find('|')` blocks from the left; the last block assigns `data` before the
delimiter and `message` everything after it (absorbing further delimiters).
Fields not reached keep their initial values, modelled as
`false`/`0`/`""` (the C++ leaves `success`/`balance` uninitialized there).
`none` models the `std::invalid_argument` thrown by `stod` on a
non-numeric balance field. -/
def decodeResponse (s : List Char) : Option Response :=
  match splitFirst s with
  | none => some { success := false, balance := 0, data := [], message := [] }
  | some (f1, r1) =>
    let succ := f1 = ['1']
    match splitFirst r1 with
    | none => some { success := succ, balance := 0, data := [], message := [] }
    | some (f2, r2) =>
      match stodM f2 with
      | none => none
      | some b =>
        match splitFirst r2 with
        | none => some { success := succ, balance := b, data := [], message := [] }
        | some (f3, r3) => some { success := succ, balance := b, data := f3, message := r3 }

/-- Modelled from the spec: `Request::parseRequest` of the missing header.
Split on `'|'` from the left, one field per split
(`type, user_id, amount, filename`), the final `data` field absorbing all
remaining text; fewer delimiters leave the trailing fields at their
defaults without signalling an error; numeric fields use the inverse
numeric parse (integral fragment, defaulting to `0`). -/
def parseRequest (s : List Char) : Request :=
  match splitFirst s with
  | none => { type := ReqType.DEPOSIT, user_id := 0, amount := 0, filename := [], data := [] }
  | some (f1, r1) =>
    let t := typeOfInt ((stodM f1).getD 0)
    match splitFirst r1 with
    | none => { type := t, user_id := 0, amount := 0, filename := [], data := [] }
    | some (f2, r2) =>
      let uid := (stodM f2).getD 0
      match splitFirst r2 with
      | none => { type := t, user_id := uid, amount := 0, filename := [], data := [] }
      | some (f3, r3) =>
        let amt := (stodM f3).getD 0
        match splitFirst r3 with
        | none => { type := t, user_id := uid, amount := amt, filename := [], data := [] }
        | some (f4, r4) => { type := t, user_id := uid, amount := amt, filename := f4, data := r4 }

/-! ### Bytes and the 4-byte length header -/

/-- Raw bytes on the wire. -/
abbrev Bytes := List Nat

/-- The bytes of an encoded string (`c_str()` viewed byte by byte). -/
def strToBytes (s : List Char) : Bytes :=
  s.map Char.toNat

/-- The C string read out of the receive buffer after `buf[len] = '\0'`:
bytes up to the first NUL, viewed as characters. -/
def cstr (p : Bytes) : List Char :=
  (p.takeWhile (fun b => b ≠ 0)).map (fun b => Char.ofNat b)

/-- The four header bytes produced by `htonl(length)` + `memcpy`
(network byte order, most significant first). -/
def lenBytes (n : Nat) : Bytes :=
  [n / 16777216 % 256, n / 65536 % 256, n / 256 % 256, n % 256]

/-- `ntohl` of four header bytes. -/
def lenOf (b : Bytes) : Nat :=
  match b with
  | [b0, b1, b2, b3] => ((b0 * 256 + b1) * 256 + b2) * 256 + b3
  | _ => 0

/-! ### The transport schedules -/

/-- One `recv` call's behavior: deliver up to `n` bytes of the stream,
fail (`-1`), or report orderly shutdown (`0`). -/
inductive NetEv
  | dlv (n : Nat)
  | err
  | eof
deriving DecidableEq

/-- One `send` call's behavior: accept up to `n` bytes, or fail (`-1`). -/
inductive SendEv
  | acc (n : Nat)
  | serr
deriving DecidableEq

/-- Total number of bytes a receive schedule can deliver. -/
def dlvSum : List NetEv → Nat
  | [] => 0
  | NetEv.dlv n :: rest => n + dlvSum rest
  | _ :: rest => dlvSum rest

/-- A receive event that delivers at least one byte (a well-behaved
blocking `recv` on an open connection). -/
def isPosDlv : NetEv → Bool
  | NetEv.dlv n => decide (1 ≤ n)
  | _ => false

/-! ### The payload receive loop -/

/-- Outcome of the payload receive loop (`while (received < total)`). -/
inductive RecvOut
  | done (acc : Bytes) (wire : Bytes) (sched : List NetEv)
  | failed (wire : Bytes) (sched : List NetEv)
deriving DecidableEq

/-- The payload receive loop of `receive_request` lines 327-334 (and the
response half of `send_request` lines 262-269):
`while (received < total) { i = recv(buf + received, total - received); if (i == -1) fail; received += i; }`.
Each iteration consumes one schedule event; `recv` returning `0` (peer
closed) adds nothing and loops again; the bytes delivered are written into
the buffer at indices `[received, received + i)` and accumulated in `acc`. -/
def recvLoop (total : Nat) (sched : List NetEv) (received : Nat) (acc wire : Bytes) :
    Option RecvOut :=
  if received < total then
    match sched with
    | [] => none
    | NetEv.err :: rest => some (RecvOut.failed wire rest)
    | NetEv.eof :: rest => recvLoop total rest received acc wire
    | NetEv.dlv n :: rest =>
      let k := min (min n (total - received)) wire.length
      recvLoop total rest (received + k) (acc ++ wire.take k) (wire.drop k)
  else some (RecvOut.done acc wire sched)

/-- Outcome of reading one frame. -/
inductive FrameOut
  | hdrFail
  | recvFail
  | frame (payload : Bytes) (declLen : Nat)
deriving DecidableEq

/-- The frame read shared by `receive_request` (lines 314-336) and the
response half of `send_request` (lines 247-271): one single `recv` of 4
bytes for the header — any result other than exactly 4 is a failure —
then `ntohl` of the declared length, then the payload receive loop.
No check of the declared length against the 1024-byte buffer is made. -/
def read_frame (wire : Bytes) (sched : List NetEv) : Option FrameOut :=
  match sched with
  | [] => none
  | ev :: rest =>
    match ev with
    | NetEv.err => some FrameOut.hdrFail
    | NetEv.eof => some FrameOut.hdrFail
    | NetEv.dlv n =>
      let k := min (min n 4) wire.length
      if k = 4 then
        let len := lenOf (wire.take 4)
        match recvLoop len rest 0 [] (wire.drop 4) with
        | none => none
        | some (RecvOut.failed _ _) => some FrameOut.recvFail
        | some (RecvOut.done acc _ _) => some (FrameOut.frame acc len)
      else some FrameOut.hdrFail

/-- Number of bytes the single header `recv` call returns. -/
def hdrDeliver (wire : Bytes) (ev : NetEv) : Nat :=
  match ev with
  | NetEv.dlv n => min (min n 4) wire.length
  | _ => 0

/-- The capacity of the fixed receive buffers `req_buf`/`resp_buf`
(`char buf[1024]`). -/
def recv_buf_capacity : Nat := 1024

/-- The highest buffer index the frame read writes when it completes a
frame: the payload occupies indices `[0, declLen)` and the NUL terminator
`buf[declLen] = '\0'` is written at index `declLen`. -/
def recvWriteHigh : FrameOut → Nat
  | FrameOut.frame _ declLen => declLen
  | _ => 0

/-! ### The send loops -/

/-- Outcome of the server-side (`send_response`) send loop: the bytes put
on the wire, the number of failed `send` calls (each only `perror`ed), and
the unconsumed schedule. -/
inductive SendOutS
  | out (emitted : Bytes) (errs : Nat) (sched : List SendEv)
deriving DecidableEq

/-- The modulus of the C++ `size_t` counter (`2^64`). -/
def U64 : Nat := 18446744073709551616

/-- The `send_response` send loop (lines 371-377 and 384-390):
`while (sent < total) { i = send(buf + sent, total - sent); if (i == -1) perror(...); sent += i; }`.
On failure nothing is returned to the caller: `i = -1` is added to the
`size_t` counter, i.e. `sent` wraps modulo `2^64` — from `sent = 0` the
loop then exits (counter is huge), from `sent ≥ 1` the loop retries from
one byte earlier. -/
def sendLoopS (buf : Bytes) (total : Nat) (sched : List SendEv) (sent : Nat)
    (emitted : Bytes) (errs : Nat) : Option SendOutS :=
  if sent < total then
    match sched with
    | [] => none
    | SendEv.serr :: rest =>
      sendLoopS buf total rest ((sent + (U64 - 1)) % U64)
        emitted (errs + 1)
    | SendEv.acc n :: rest =>
      sendLoopS buf total rest (sent + min n (total - sent))
        (emitted ++ (buf.drop sent).take (min n (total - sent))) errs
  else some (SendOutS.out emitted errs sched)

/-- The frame write of `send_response`: the 4-byte `htonl` header loop,
then the payload loop, with the loop discipline of `sendLoopS`.  Returns
the bytes emitted on the wire and the number of (merely logged) send
failures; the C++ function returns `void` regardless. -/
def write_frame (payload : Bytes) (sched : List SendEv) : Option (Bytes × Nat) :=
  match sendLoopS (lenBytes (payload.length % 4294967296)) 4 sched 0 [] 0 with
  | none => none
  | some (SendOutS.out out1 errs1 ss1) =>
    match sendLoopS payload payload.length ss1 0 out1 errs1 with
    | none => none
    | some (SendOutS.out out2 errs2 _) => some (out2, errs2)

/-- `send_response` (lines 353-391): encode the response, then frame-write
it.  The declared void return means no error ever reaches the caller. -/
def send_response (r : Response) (sched : List SendEv) : Option (Bytes × Nat) :=
  write_frame (strToBytes (encodeResponse r)) sched

/-- Outcome of the client-side send loop of `send_request`. -/
inductive SendOutC
  | doneC (emitted : Bytes) (sched : List SendEv)
  | failedC (emitted : Bytes) (sched : List SendEv)
deriving DecidableEq

/-- The `send_request` send loop (lines 223-230 and 237-244): like
`sendLoopS` but a failed `send` returns immediately
(`return Response(false, 0, "", "Send failed")` in the caller). -/
def sendLoopC (buf : Bytes) (total : Nat) (sched : List SendEv) (sent : Nat)
    (emitted : Bytes) : Option SendOutC :=
  if sent < total then
    match sched with
    | [] => none
    | SendEv.serr :: rest => some (SendOutC.failedC emitted rest)
    | SendEv.acc n :: rest =>
      let k := min n (total - sent)
      sendLoopC buf total rest (sent + k) (emitted ++ (buf.drop sent).take k)
  else some (SendOutC.doneC emitted sched)

/-- The synthesized response for a failed send (line 227/241). -/
def sendFailResp : Response :=
  { success := false, balance := 0, data := [], message := "Send failed".toList }

/-- The synthesized response for a failed receive (line 250/266). -/
def recvFailResp : Response :=
  { success := false, balance := 0, data := [], message := "Receive failed".toList }

/-- Result of `send_request`: the returned `Response`, or the
`std::invalid_argument` escaping from `stod` while decoding. -/
inductive SROut
  | resp (r : Response)
  | thrown
deriving DecidableEq

/-- `send_request` (lines 202-297): encode the request; send the header
then the payload with the aborting loop (`sendLoopC`), synthesizing
`Response(false, 0, "", "Send failed")` on a send failure; then read one
response frame (`read_frame` over the peer's bytes `wire` and the receive
schedule `rs`), synthesizing `Response(false, 0, "", "Receive failed")`
on a header or payload receive failure; finally decode the received
C string as a `Response`. -/
def send_request (q : Request) (ss : List SendEv) (wire : Bytes) (rs : List NetEv) :
    Option SROut :=
  let payload := strToBytes (encodeRequest q)
  match sendLoopC (lenBytes (payload.length % 4294967296)) 4 ss 0 [] with
  | none => none
  | some (SendOutC.failedC _ _) => some (SROut.resp sendFailResp)
  | some (SendOutC.doneC _ ss1) =>
    match sendLoopC payload payload.length ss1 0 [] with
    | none => none
    | some (SendOutC.failedC _ _) => some (SROut.resp sendFailResp)
    | some (SendOutC.doneC _ _) =>
      match read_frame wire rs with
      | none => none
      | some FrameOut.hdrFail => some (SROut.resp recvFailResp)
      | some FrameOut.recvFail => some (SROut.resp recvFailResp)
      | some (FrameOut.frame p _) =>
        match decodeResponse (cstr p) with
        | none => some SROut.thrown
        | some r => some (SROut.resp r)

/-- `receive_request` (lines 308-340): read one frame; on header or
payload receive failure return the sentinel `Request(QUIT)`; otherwise
parse the received C string as a `Request`. -/
def receive_request (wire : Bytes) (sched : List NetEv) : Option Request :=
  match read_frame wire sched with
  | none => none
  | some FrameOut.hdrFail => some quitReq
  | some FrameOut.recvFail => some quitReq
  | some (FrameOut.frame p _) => some (parseRequest (cstr p))

/-! ### The send-side copy (`memcpy(message_buf, str.c_str(), str.size())`) -/

/-- Capacity of the fixed send buffer `char message_buf[1024]`. -/
def MSG_BUF_CAP : Nat := 1024

/-- The buffer indices written by the unchecked
`memcpy(message_buf, s.c_str(), s.size())`: indices `0, …, s.size()-1`. -/
def memcpyIdxs (len : Nat) : List Nat := List.range len

/-! ### Client-side connection construction -/

/-- The connection-setup failure (`throw("Error …")` in the constructor). -/
inductive ChanErr
  | ConnectionSetupError
deriving DecidableEq

deriving instance DecidableEq for Except

/-- An established client channel: the parsed peer address and the cached
`peer_ip`/`peer_port` diagnostics. -/
structure Channel where
  addr : Nat × Nat × Nat × Nat
  port : Nat
  peer_ip : List Char
  peer_port : Nat
deriving DecidableEq

/-- One dotted-decimal octet: one to three digits, value at most 255. -/
def octetOk (p : List Char) : Option Nat :=
  if p ≠ [] ∧ p.length ≤ 3 ∧ p.all Char.isDigit then
    let v := digitsVal p
    if v ≤ 255 then some v else none
  else none

/-- Model of `inet_pton(AF_INET, s, …)`: a literal dotted-decimal IPv4
address `a.b.c.d`. -/
def ipv4Parse (s : List Char) : Option (Nat × Nat × Nat × Nat) :=
  match splitFirstOn '.' s with
  | none => none
  | some (p1, r1) =>
    match splitFirstOn '.' r1 with
    | none => none
    | some (p2, r2) =>
      match splitFirstOn '.' r2 with
      | none => none
      | some (p3, p4) =>
        if '.' ∈ p4 then none
        else
          match octetOk p1, octetOk p2, octetOk p3, octetOk p4 with
          | some a, some b, some c, some d => some (a, b, c, d)
          | _, _, _, _ => none

/-- The client side of the `NetworkRequestChannel` constructor
(lines 81-116): create the socket, resolve the host — the literal
`"localhost"` is replaced by `"127.0.0.1"`, any other host must parse as
a literal IPv4 address — then connect.  Each failing step throws, which
the spec's taxonomy calls `ConnectionSetupError`; on success the channel
caches `peer_ip = ip` and `peer_port = port`.  `socketOk`/`connectOk`
model the outcomes of the `socket` and `connect` system calls. -/
def clientConstruct (host : List Char) (port : Nat) (socketOk connectOk : Bool) :
    Except ChanErr Channel :=
  if socketOk = false then Except.error ChanErr.ConnectionSetupError
  else
    let addrOpt := if host = "localhost".toList then ipv4Parse ("127.0.0.1".toList)
                   else ipv4Parse host
    match addrOpt with
    | none => Except.error ChanErr.ConnectionSetupError
    | some a =>
      if connectOk then Except.ok { addr := a, port := port, peer_ip := host, peer_port := port }
      else Except.error ChanErr.ConnectionSetupError

theorem digitChar_isDigit (d : Nat) (h : d < 10) : (digitChar d).isDigit = true := by
  interval_cases d <;> decide

theorem digitChar_toNat (d : Nat) (h : d < 10) : (digitChar d).toNat = 48 + d := by
  interval_cases d <;> decide

theorem natRenderF_all_digits (fuel : Nat) :
    ∀ n c, c ∈ natRenderF fuel n → c.isDigit = true := by
  induction fuel with
  | zero => intro n c hc; simp [natRenderF] at hc
  | succ f ih =>
    intro n c hc
    by_cases hn : n = 0
    · simp [natRenderF, hn] at hc
    · simp [natRenderF, hn] at hc
      rcases hc with hc | hc
      · exact ih _ _ hc
      · subst hc; exact digitChar_isDigit _ (Nat.mod_lt _ (by omega))

theorem digitsVal_append (l : List Char) (c : Char) :
    digitsVal (l ++ [c]) = 10 * digitsVal l + (c.toNat - 48) := by
  simp [digitsVal, List.foldl_append]

theorem digitsVal_natRenderF (fuel : Nat) :
    ∀ n, n ≤ fuel → digitsVal (natRenderF fuel n) = n := by
  induction fuel with
  | zero => intro n h; interval_cases n; simp [natRenderF, digitsVal]
  | succ f ih =>
    intro n h
    by_cases hn : n = 0
    · simp [natRenderF, hn, digitsVal]
    · rw [natRenderF, if_neg hn, digitsVal_append, ih (n / 10) (by omega),
        digitChar_toNat _ (Nat.mod_lt _ (by omega))]
      omega

theorem digitsVal_natRender (n : Nat) : digitsVal (natRender n) = n := by
  by_cases hn : n = 0
  · simp [natRender, hn, digitsVal]
  · rw [natRender, if_neg hn, digitsVal_natRenderF _ _ (Nat.le_succ n)]

theorem natRender_all_digits (n : Nat) : ∀ c ∈ natRender n, c.isDigit = true := by
  intro c hc
  by_cases hn : n = 0
  · simp [natRender, hn] at hc; subst hc; decide
  · rw [natRender, if_neg hn] at hc; exact natRenderF_all_digits _ _ _ hc

theorem natRender_ne_nil (n : Nat) : natRender n ≠ [] := by
  by_cases hn : n = 0
  · simp [natRender, hn]
  · rw [natRender, if_neg hn, natRenderF, if_neg hn]; simp

theorem takeWhile_all {α : Type} {p : α → Bool} :
    ∀ {l : List α}, (∀ c ∈ l, p c = true) → l.takeWhile p = l := by
  intro l
  induction l with
  | nil => intro _; rfl
  | cons c cs ih =>
    intro h
    rw [List.takeWhile_cons, h c (by simp)]
    simp [ih (fun x hx => h x (by simp [hx]))]

theorem dropWhile_all {α : Type} {p : α → Bool} :
    ∀ {l : List α}, (∀ c ∈ l, p c = true) → l.dropWhile p = [] := by
  intro l
  induction l with
  | nil => intro _; rfl
  | cons c cs ih =>
    intro h
    rw [List.dropWhile_cons, h c (by simp)]
    simp [ih (fun x hx => h x (by simp [hx]))]

theorem stodMag_digits {l : List Char} (hne : l ≠ [])
    (hd : ∀ c ∈ l, c.isDigit = true) : stodMag l = some (digitsVal l : Int) := by
  rw [stodMag]
  simp [takeWhile_all hd, dropWhile_all hd, hne, expOf]

theorem stodM_natRender (n : Nat) : stodM (natRender n) = some (n : Int) := by
  rcases h : natRender n with _ | ⟨c, cs⟩
  · exact absurd h (natRender_ne_nil n)
  · have hdig : ∀ x ∈ natRender n, x.isDigit = true := natRender_all_digits n
    have hc : c.isDigit = true := hdig c (by rw [h]; simp)
    have hc1 : c ≠ '-' := by intro hx; subst hx; simp at hc
    have hc2 : c ≠ '+' := by intro hx; subst hx; simp at hc
    rw [stodM, ← h]
    rw [h]
    simp only [List.head?, Option.some.injEq]
    rw [if_neg hc1, if_neg hc2, ← h,
      stodMag_digits (natRender_ne_nil n) hdig, digitsVal_natRender]

theorem stodM_intRender (z : Int) : stodM (intRender z) = some z := by
  cases z with
  | ofNat n => exact stodM_natRender n
  | negSucc m =>
    rw [intRender, stodM, if_pos (show (List.head? ('-' :: natRender (m + 1))) = some '-' from rfl)]
    simp only [List.tail_cons]
    rw [stodMag_digits (natRender_ne_nil _) (natRender_all_digits _), digitsVal_natRender]
    simp [Int.negSucc_eq]

theorem not_delim_natRender (d : Char) (hd : d.isDigit = false) (n : Nat) :
    d ∉ natRender n := by
  intro hmem
  have := natRender_all_digits n d hmem
  rw [hd] at this
  exact Bool.false_ne_true this

theorem not_delim_intRender (d : Char) (hd : d.isDigit = false) (hm : d ≠ '-') (z : Int) :
    d ∉ intRender z := by
  cases z with
  | ofNat n => exact not_delim_natRender d hd n
  | negSucc m =>
    rw [intRender]
    intro hmem
    rcases List.mem_cons.mp hmem with h1 | h1
    · exact hm h1
    · exact not_delim_natRender d hd _ h1

theorem splitFirstOn_not_mem {d : Char} :
    ∀ {s : List Char}, d ∉ s → splitFirstOn d s = none := by
  intro s
  induction s with
  | nil => intro _; rfl
  | cons c cs ih =>
    intro h
    rw [splitFirstOn, if_neg (by intro hx; exact h (by simp [hx])),
      ih (fun hx => h (by simp [hx]))]
    rfl

theorem splitFirstOn_append {d : Char} :
    ∀ {a : List Char} (b : List Char), d ∉ a → splitFirstOn d (a ++ d :: b) = some (a, b) := by
  intro a
  induction a with
  | nil => intro b _; simp [splitFirstOn]
  | cons c cs ih =>
    intro b h
    rw [List.cons_append, splitFirstOn,
      if_neg (by intro hx; exact h (by simp [hx])),
      ih b (fun hx => h (by simp [hx]))]
    rfl

theorem splitFirst_not_mem {s : List Char} (h : '|' ∉ s) : splitFirst s = none :=
  splitFirstOn_not_mem h

theorem splitFirst_append {a : List Char} (b : List Char) (h : '|' ∉ a) :
    splitFirst (a ++ '|' :: b) = some (a, b) :=
  splitFirstOn_append b h

theorem typeOfInt_typeInt (t : ReqType) : typeOfInt (typeInt t) = t := by
  cases t <;> rfl

theorem no_delim_int (z : Int) : '|' ∉ intRender z :=
  not_delim_intRender '|' (by decide) (by decide) z

theorem dblRender_small (v : Int) (h : v.natAbs < 1000000) : dblRender v = intRender v := by
  cases v with
  | ofNat n =>
    simp only [dblRender, intRender]
    rw [if_pos (by simpa using h)]
  | negSucc m =>
    simp only [dblRender, intRender]
    rw [if_pos (by simpa [Int.natAbs_negSucc] using h)]

theorem parseRequest_encodeRequest (q : Request)
    (hf : '|' ∉ q.filename) (hd : '|' ∉ q.data) (ha : q.amount.natAbs < 1000000) :
    parseRequest (encodeRequest q) = q := by
  obtain ⟨t, u, a, f, d⟩ := q
  simp only [encodeRequest] at *
  rw [dblRender_small a ha, parseRequest, splitFirst_append _ (no_delim_int _)]
  simp only
  rw [splitFirst_append _ (no_delim_int _)]
  simp only
  rw [splitFirst_append _ (no_delim_int _)]
  simp only
  rw [splitFirst_append _ hf]
  simp only [stodM_intRender, Option.getD_some, typeOfInt_typeInt]

theorem decodeResponse_encodeResponse (r : Response)
    (hd : '|' ∉ r.data) (hm : '|' ∉ r.message) (hb : r.balance.natAbs < 1000000) :
    decodeResponse (encodeResponse r) = some r := by
  obtain ⟨s, b, dt, m⟩ := r
  simp only at hd hm hb
  cases s
  · rw [show encodeResponse ⟨false, b, dt, m⟩
        = ['0'] ++ '|' :: (dblRender b ++ '|' :: (dt ++ '|' :: m)) from rfl]
    rw [dblRender_small b hb]
    rw [decodeResponse, splitFirst_append _ (by decide)]
    simp only
    rw [splitFirst_append _ (no_delim_int _)]
    simp only [stodM_intRender]
    rw [splitFirst_append _ hd]
    simp
  · rw [show encodeResponse ⟨true, b, dt, m⟩
        = ['1'] ++ '|' :: (dblRender b ++ '|' :: (dt ++ '|' :: m)) from rfl]
    rw [dblRender_small b hb]
    rw [decodeResponse, splitFirst_append _ (by decide)]
    simp only
    rw [splitFirst_append _ (no_delim_int _)]
    simp only [stodM_intRender]
    rw [splitFirst_append _ hd]
    simp

theorem take_join : ∀ (l : List α) (k m : Nat), l.take k ++ (l.drop k).take m = l.take (k + m) := by
  intro l
  induction l with
  | nil => intro k m; simp
  | cons a l ih =>
    intro k m
    cases k with
    | zero => simp
    | succ k =>
      simp only [List.take_succ_cons, List.drop_succ_cons, List.cons_append, ih]
      rw [show k + 1 + m = (k + m) + 1 by omega, List.take_succ_cons]

theorem recvLoop_done (sched : List NetEv) : ∀ (total received : Nat) (acc wire : Bytes),
    (∀ ev ∈ sched, isPosDlv ev = true) →
    total - received ≤ wire.length →
    total - received ≤ dlvSum sched →
    ∃ w' s', recvLoop total sched received acc wire
      = some (RecvOut.done (acc ++ wire.take (total - received)) w' s') := by
  induction sched with
  | nil =>
    intro total received acc wire _ _ hsum
    have h0 : total - received = 0 := by simpa [dlvSum] using hsum
    rw [recvLoop, if_neg (by omega), h0]
    exact ⟨wire, [], by simp⟩
  | cons ev rest ih =>
    intro total received acc wire hpos hwire hsum
    by_cases hlt : received < total
    · have hev := hpos ev (by simp)
      rcases ev with n | _ | _
      rotate_left
      · simp [isPosDlv] at hev
      · simp [isPosDlv] at hev
      have hn : 1 ≤ n := by simpa [isPosDlv] using hev
      have hr : 1 ≤ total - received := by omega
      have hkr : min n (total - received) ≤ total - received := Nat.min_le_right _ _
      have hk : min (min n (total - received)) wire.length = min n (total - received) :=
        Nat.min_eq_left (le_trans hkr hwire)
      have hor : min n (total - received) = n ∨ min n (total - received) = total - received := by
        rcases Nat.le_total n (total - received) with h | h
        · exact Or.inl (Nat.min_eq_left h)
        · exact Or.inr (Nat.min_eq_right h)
      rw [recvLoop.eq_def, if_pos hlt]
      simp only [hk]
      have hk1 : 1 ≤ min n (total - received) := by
        rcases hor with h | h <;> omega
      rw [show dlvSum (NetEv.dlv n :: rest) = n + dlvSum rest from rfl] at hsum
      have hsum' : total - (received + min n (total - received)) ≤ dlvSum rest := by
        rcases hor with h | h <;> omega
      obtain ⟨w', s', hrec⟩ := ih total (received + min n (total - received))
        (acc ++ wire.take (min n (total - received)))
        (wire.drop (min n (total - received)))
        (fun e he => hpos e (by simp [he]))
        (by rw [List.length_drop]; omega) hsum'
      refine ⟨w', s', ?_⟩
      rw [hrec, List.append_assoc, take_join,
        show min n (total - received) + (total - (received + min n (total - received)))
          = total - received by omega]
    · rw [recvLoop.eq_def, if_neg hlt]
      have h0 : total - received = 0 := by omega
      rw [h0]
      exact ⟨wire, ev :: rest, by simp⟩

theorem sendLoopS_errs_le (sched : List SendEv) :
    ∀ (buf : Bytes) (total sent : Nat) (out : Bytes) (errs : Nat) (o : Bytes) (e : Nat)
      (s : List SendEv),
    sendLoopS buf total sched sent out errs = some (SendOutS.out o e s) → errs ≤ e := by
  induction sched with
  | nil =>
    intro buf total sent out errs o e s h
    simp only [sendLoopS] at h
    by_cases hlt : sent < total
    · rw [if_pos hlt] at h; simp at h
    · rw [if_neg hlt] at h
      simp only [Option.some.injEq, SendOutS.out.injEq] at h
      omega
  | cons ev rest ih =>
    intro buf total sent out errs o e s h
    by_cases hlt : sent < total
    · cases ev with
      | serr =>
        simp only [sendLoopS, if_pos hlt] at h
        have := ih _ _ _ _ _ _ _ _ h
        omega
      | acc n =>
        simp only [sendLoopS, if_pos hlt] at h
        exact ih _ _ _ _ _ _ _ _ h
    · cases ev <;>
        (simp only [sendLoopS] at h
         rw [if_neg hlt] at h
         simp only [Option.some.injEq, SendOutS.out.injEq] at h
         omega)

theorem sendLoopS_no_err_emit (sched : List SendEv) :
    ∀ (buf : Bytes) (total sent : Nat) (out : Bytes) (errs : Nat) (o : Bytes)
      (s : List SendEv),
    sendLoopS buf total sched sent out errs = some (SendOutS.out o errs s) →
    o = out ++ (buf.drop sent).take (total - sent) := by
  induction sched with
  | nil =>
    intro buf total sent out errs o s h
    simp only [sendLoopS] at h
    by_cases hlt : sent < total
    · rw [if_pos hlt] at h; simp at h
    · rw [if_neg hlt] at h
      simp only [Option.some.injEq, SendOutS.out.injEq] at h
      rw [show total - sent = 0 by omega]
      simp [h.1]
  | cons ev rest ih =>
    intro buf total sent out errs o s h
    by_cases hlt : sent < total
    · cases ev with
      | serr =>
        simp only [sendLoopS, if_pos hlt] at h
        have := sendLoopS_errs_le _ _ _ _ _ _ _ _ _ h
        omega
      | acc n =>
        simp only [sendLoopS, if_pos hlt] at h
        have hk : min n (total - sent) ≤ total - sent := Nat.min_le_right _ _
        have := ih _ _ _ _ _ _ _ h
        rw [this, List.append_assoc, ← List.drop_drop, take_join,
          show min n (total - sent) + (total - (sent + min n (total - sent)))
            = total - sent by omega]
    · cases ev <;>
        (simp only [sendLoopS] at h
         rw [if_neg hlt] at h
         simp only [Option.some.injEq, SendOutS.out.injEq] at h
         rw [show total - sent = 0 by omega]
         simp [h.1])

theorem lenBytes_length (n : Nat) : (lenBytes n).length = 4 := rfl

theorem lenOf_lenBytes (n : Nat) (h : n < 4294967296) : lenOf (lenBytes n) = n := by
  simp only [lenBytes, lenOf]
  omega

theorem write_frame_no_err (payload : Bytes) (ss : List SendEv) (wire : Bytes)
    (h : write_frame payload ss = some (wire, 0)) :
    wire = lenBytes (payload.length % 4294967296) ++ payload := by
  rw [write_frame] at h
  rcases h1 : sendLoopS (lenBytes (payload.length % 4294967296)) 4 ss 0 [] 0 with _ | ⟨o1, e1, s1⟩
  · rw [h1] at h; simp at h
  · rw [h1] at h
    dsimp only at h
    rcases h2 : sendLoopS payload payload.length s1 0 o1 e1 with _ | ⟨o2, e2, s2⟩
    · rw [h2] at h; simp at h
    · rw [h2] at h
      dsimp only at h
      simp only [Option.some.injEq, Prod.mk.injEq] at h
      obtain ⟨hw, he⟩ := h
      subst hw he
      have he1 : e1 = 0 := by
        have := sendLoopS_errs_le _ _ _ _ _ _ _ _ _ h2
        omega
      subst he1
      have hh := sendLoopS_no_err_emit _ _ _ _ _ _ _ _ h1
      have hp := sendLoopS_no_err_emit _ _ _ _ _ _ _ _ h2
      rw [hp, hh]
      simp [List.take_of_length_le, lenBytes_length]

theorem cons_eq_singleton_append (a : α) (l : List α) : a :: l = [a] ++ l := rfl

theorem read_frame_exact (payload : Bytes) (hlen : payload.length < 4294967296)
    (n0 : Nat) (hn0 : 4 ≤ n0) (cs : List NetEv)
    (hpos : ∀ ev ∈ cs, isPosDlv ev = true)
    (hsum : payload.length ≤ dlvSum cs) :
    read_frame (lenBytes payload.length ++ payload) (NetEv.dlv n0 :: cs)
      = some (FrameOut.frame payload payload.length) := by
  have hlen4 : (lenBytes payload.length ++ payload).length = 4 + payload.length := by
    rw [List.length_append, lenBytes_length]
  have hk : min (min n0 4) (lenBytes payload.length ++ payload).length = 4 := by
    rw [hlen4]; omega
  rw [read_frame]
  simp only [hk, if_pos rfl]
  rw [List.take_left' (lenBytes_length _), List.drop_left' (lenBytes_length _),
    lenOf_lenBytes _ hlen]
  obtain ⟨w', s', hrec⟩ := recvLoop_done cs payload.length 0 [] payload hpos
    (by simp) (by simpa using hsum)
  rw [hrec]
  simp

theorem header_read_single_call_iff (wire : Bytes) (h4 : 4 ≤ wire.length)
    (ev : NetEv) (rest : List NetEv) :
    read_frame wire (ev :: rest) = some FrameOut.hdrFail ↔ hdrDeliver wire ev < 4 := by
  cases ev with
  | err => simp [read_frame, hdrDeliver]
  | eof => simp [read_frame, hdrDeliver]
  | dlv n =>
    rw [read_frame]
    simp only [hdrDeliver]
    by_cases hk : min (min n 4) wire.length = 4
    · simp only [hk, if_pos rfl]
      rcases hr : recvLoop (lenOf (wire.take 4)) rest 0 [] (wire.drop 4) with _ | o
      · simp [hr, hk]
      · cases o <;> simp [hr, hk]
    · simp only [if_neg hk]
      have hle : min (min n 4) wire.length ≤ 4 := by
        have := Nat.min_le_left (min n 4) wire.length
        have := Nat.min_le_right n 4
        omega
      simp
      omega

/-- C3 counterexample: the Response with `balance = 1234567` (an integral
double, text fields empty, no delimiter anywhere) does not round-trip:
the `ostream` default precision-6 conversion renders it as
`"1.23457e+06"`, which `stod` reads back as `1234570` — the decoded
record differs from the original in its numeric field. -/
theorem claim3_counterexample :
    encodeResponse { success := true, balance := 1234567, data := [], message := [] }
      = "1|1.23457e+06||".toList ∧
    decodeResponse (encodeResponse
        { success := true, balance := 1234567, data := [], message := [] })
      = some { success := true, balance := 1234570, data := [], message := [] } ∧
    decodeResponse (encodeResponse
        { success := true, balance := 1234567, data := [], message := [] })
      ≠ some { success := true, balance := 1234567, data := [], message := [] } := by
  decide

/-- C3 (amended): for every Request and every Response whose text fields
contain no `'|'` delimiter and whose double fields are preserved by the
precision-6 default text conversion — in the integral model, magnitude
below a million — decoding the encoded text yields a record equal to the
original, numeric fields included; a larger double such as `1234567` is
rendered as rounded scientific notation and decodes to the rounded value,
per the counterexample. -/
theorem claim3_codec_roundtrip (q : Request) (r : Response)
    (hqf : '|' ∉ q.filename) (hqd : '|' ∉ q.data)
    (hrd : '|' ∉ r.data) (hrm : '|' ∉ r.message)
    (hqa : q.amount.natAbs < 1000000) (hrb : r.balance.natAbs < 1000000) :
    parseRequest (encodeRequest q) = q ∧ decodeResponse (encodeResponse r) = some r :=
  ⟨parseRequest_encodeRequest q hqf hqd hqa, decodeResponse_encodeResponse r hrd hrm hrb⟩

/-- C3 witness: the round-trip at a concrete Request and Response. -/
theorem claim3_codec_roundtrip_witness :
    parseRequest (encodeRequest
        { type := ReqType.BALANCE, user_id := 42, amount := 0,
          filename := "f.txt".toList, data := "hello".toList })
      = { type := ReqType.BALANCE, user_id := 42, amount := 0,
          filename := "f.txt".toList, data := "hello".toList } ∧
    decodeResponse (encodeResponse
        { success := true, balance := 100, data := [], message := "OK".toList })
      = some { success := true, balance := 100, data := [], message := "OK".toList } :=
  claim3_codec_roundtrip _ _ (by decide) (by decide) (by decide) (by decide)
    (by decide) (by decide)

/-- C2 counterexample: the frame `[0,0,0,3] ++ "abc"` written by `write_frame`,
delivered split into chunks of 2 and 5 bytes (all 7 bytes arrive), is not
returned: the single 4-byte header `recv` sees only 2 bytes and the read
fails — so the claim does not hold for every chunked delivery schedule. -/
theorem claim2_counterexample :
    write_frame [97, 98, 99] [SendEv.acc 4, SendEv.acc 3] = some ([0, 0, 0, 3, 97, 98, 99], 0) ∧
    7 ≤ dlvSum [NetEv.dlv 2, NetEv.dlv 5] ∧
    read_frame [0, 0, 0, 3, 97, 98, 99] [NetEv.dlv 2, NetEv.dlv 5] = some FrameOut.hdrFail := by
  decide

/-- C2 (amended): for every payload within the 1024-byte buffer capacity,
a frame written by `write_frame` under any error-free partial-send schedule
and read back under any delivery schedule whose FIRST receive call yields
all 4 header bytes — the payload itself split into arbitrarily small
chunks — returns exactly the written payload.  (A schedule that splits the
4 header bytes across receive calls instead makes the read fail, per the
counterexample.) -/
theorem claim2_framing_roundtrip (payload : Bytes) (hcap : payload.length ≤ 1024)
    (ss : List SendEv) (wire : Bytes) (hw : write_frame payload ss = some (wire, 0))
    (n0 : Nat) (hn0 : 4 ≤ n0) (cs : List NetEv)
    (hpos : ∀ ev ∈ cs, isPosDlv ev = true)
    (hsum : payload.length ≤ dlvSum cs) :
    read_frame wire (NetEv.dlv n0 :: cs) = some (FrameOut.frame payload payload.length) := by
  have hwire := write_frame_no_err payload ss wire hw
  rw [hwire, Nat.mod_eq_of_lt (show payload.length < 4294967296 by omega)]
  exact read_frame_exact payload (by omega) n0 hn0 cs hpos hsum

/-- C2 witness: the payload `"abc"`, sent with split sends and read back
with the header in one chunk and the payload in three 1-byte chunks. -/
theorem claim2_framing_roundtrip_witness :
    read_frame [0, 0, 0, 3, 97, 98, 99] [NetEv.dlv 4, NetEv.dlv 1, NetEv.dlv 1, NetEv.dlv 1]
      = some (FrameOut.frame [97, 98, 99] 3) := by
  have h := claim2_framing_roundtrip [97, 98, 99] (by decide)
    [SendEv.acc 2, SendEv.acc 2, SendEv.acc 2, SendEv.acc 1] [0, 0, 0, 3, 97, 98, 99]
    (by decide) 4 (by decide) [NetEv.dlv 1, NetEv.dlv 1, NetEv.dlv 1] (by decide) (by decide)
  simpa using h

/-- C8 counterexample: the peer eventually delivers all four header bytes
(and the payload), but split 2+2+1 across receive calls; the header read
still fails, refuting "whenever the peer eventually delivers all 4 header
bytes the header read succeeds". -/
theorem claim8_counterexample :
    5 ≤ dlvSum [NetEv.dlv 2, NetEv.dlv 2, NetEv.dlv 1] ∧
    read_frame [0, 0, 0, 1, 65] [NetEv.dlv 2, NetEv.dlv 2, NetEv.dlv 1]
      = some FrameOut.hdrFail := by
  decide

/-- C8 (amended): the header read is a single `recv` call: with at least 4
bytes on the wire, it fails exactly when that first call returns fewer
than 4 bytes (delivery chunk under 4, error, or orderly shutdown) — even
if later calls would have delivered the rest. -/
theorem claim8_header_single_recv (wire : Bytes) (h4 : 4 ≤ wire.length)
    (ev : NetEv) (rest : List NetEv) :
    read_frame wire (ev :: rest) = some FrameOut.hdrFail ↔ hdrDeliver wire ev < 4 :=
  header_read_single_call_iff wire h4 ev rest

/-- C8 witness: the characterization at a concrete wire and first event. -/
theorem claim8_header_single_recv_witness :
    (read_frame [0, 0, 0, 1, 65] [NetEv.dlv 4, NetEv.dlv 1] = some FrameOut.hdrFail
      ↔ hdrDeliver [0, 0, 0, 1, 65] (NetEv.dlv 4) < 4) :=
  claim8_header_single_recv [0, 0, 0, 1, 65] (by decide) (NetEv.dlv 4) [NetEv.dlv 1]

/-- C6: whenever the frame read fails — the 4-byte header `recv` does not
return exactly 4 bytes, or a payload `recv` returns `-1` —
`receive_request` returns the sentinel `Request(QUIT)` instead of raising
or retrying. -/
theorem claim6_receive_failure_quit (wire : Bytes) (sched : List NetEv)
    (h : read_frame wire sched = some FrameOut.hdrFail
      ∨ read_frame wire sched = some FrameOut.recvFail) :
    receive_request wire sched = some quitReq := by
  rcases h with h | h <;> simp [receive_request, h]

/-- C6 witness: a failing header receive yields the QUIT sentinel. -/
theorem claim6_receive_failure_quit_witness :
    receive_request [] [NetEv.err] = some quitReq :=
  claim6_receive_failure_quit [] [NetEv.err] (Or.inl (by decide))

/-- C1 (code bug): a frame declaring 1025 payload bytes — more than the
1024-byte `req_buf` — is not rejected: no length check exists, the payload
loop receives all 1025 bytes into the buffer (writing indices 0..1024) and
the NUL terminator is written at index 1025, all beyond the 1024-byte
capacity, and `receive_request` returns a parsed record with no error. -/
theorem claim1_oversize_frame_unchecked :
    read_frame (lenBytes 1025 ++ List.replicate 1025 97) [NetEv.dlv 4, NetEv.dlv 1025]
      = some (FrameOut.frame (List.replicate 1025 97) 1025) ∧
    recv_buf_capacity < recvWriteHigh (FrameOut.frame (List.replicate 1025 97) 1025) ∧
    receive_request (lenBytes 1025 ++ List.replicate 1025 97) [NetEv.dlv 4, NetEv.dlv 1025]
      = some { type := ReqType.DEPOSIT, user_id := 0, amount := 0,
               filename := [], data := [] } := by
  have hlen : (List.replicate 1025 (97 : Nat)).length = 1025 := by
    rw [List.length_replicate]
  have h1 : read_frame (lenBytes 1025 ++ List.replicate 1025 97)
      (NetEv.dlv 4 :: [NetEv.dlv 1025])
      = some (FrameOut.frame (List.replicate 1025 97) 1025) := by
    have h := read_frame_exact (List.replicate 1025 97) (by rw [hlen]; omega)
      4 (by omega) [NetEv.dlv 1025] (by decide) (by rw [hlen]; decide)
    rw [hlen] at h
    exact h
  refine ⟨h1, by decide, ?_⟩
  rw [receive_request, h1]
  dsimp only
  have hc : cstr (List.replicate 1025 97) = List.replicate 1025 'a' := by
    rw [cstr, takeWhile_all (by
      intro b hb
      rw [List.eq_of_mem_replicate hb]
      decide), List.map_replicate, show Char.ofNat 97 = 'a' from by decide]
  rw [hc]
  have hsplit : splitFirst (List.replicate 1025 'a') = none := by
    apply splitFirst_not_mem
    intro h
    have := List.eq_of_mem_replicate h
    simp at this
  simp only [parseRequest, hsplit]

/-- C4 (code bug): a failing `send` in `send_response` does not abort the
operation and surfaces no error.  With the first (header) send failing and
the next accepted, the `size_t` counter wraps (`sent += -1`), the header
loop silently exits without transmitting the header, the payload loop then
runs and transmits the 7 payload bytes, and the function returns normally —
the only trace of the failure is one `perror` log (`errs = 1`); the caller
receives no `Result`/`IoError` (the C++ return type is `void`). -/
theorem claim4_send_response_continues_after_failure :
    send_response { success := true, balance := 0, data := [], message := "OK".toList }
        [SendEv.serr, SendEv.acc 7]
      = some (strToBytes "1|0||OK".toList, 1) := by
  decide

/-- C5: on every I/O failure inside `send_request` — header send failure,
payload send failure, failed/short response-header receive, or a failed
payload receive — the call returns the synthesized failure Response
(`success = false`, non-empty diagnostic message) rather than propagating
the error; and when the peer closes the connection before responding
(orderly shutdown on the first response receive), the call returns that
failure Response rather than blocking. -/
theorem claim5_send_request_failures (q : Request) (ss : List SendEv) (wire : Bytes)
    (rs : List NetEv) :
    (∀ em rest,
      sendLoopC (lenBytes ((strToBytes (encodeRequest q)).length % 4294967296)) 4 ss 0 []
          = some (SendOutC.failedC em rest) →
      send_request q ss wire rs = some (SROut.resp sendFailResp)) ∧
    (∀ em1 ss1 em rest,
      sendLoopC (lenBytes ((strToBytes (encodeRequest q)).length % 4294967296)) 4 ss 0 []
          = some (SendOutC.doneC em1 ss1) →
      sendLoopC (strToBytes (encodeRequest q)) (strToBytes (encodeRequest q)).length ss1 0 []
          = some (SendOutC.failedC em rest) →
      send_request q ss wire rs = some (SROut.resp sendFailResp)) ∧
    (∀ em1 ss1 em2 ss2,
      sendLoopC (lenBytes ((strToBytes (encodeRequest q)).length % 4294967296)) 4 ss 0 []
          = some (SendOutC.doneC em1 ss1) →
      sendLoopC (strToBytes (encodeRequest q)) (strToBytes (encodeRequest q)).length ss1 0 []
          = some (SendOutC.doneC em2 ss2) →
      (read_frame wire rs = some FrameOut.hdrFail ∨ read_frame wire rs = some FrameOut.recvFail) →
      send_request q ss wire rs = some (SROut.resp recvFailResp)) ∧
    (∀ em1 ss1 em2 ss2 rs',
      sendLoopC (lenBytes ((strToBytes (encodeRequest q)).length % 4294967296)) 4 ss 0 []
          = some (SendOutC.doneC em1 ss1) →
      sendLoopC (strToBytes (encodeRequest q)) (strToBytes (encodeRequest q)).length ss1 0 []
          = some (SendOutC.doneC em2 ss2) →
      rs = NetEv.eof :: rs' →
      send_request q ss wire rs = some (SROut.resp recvFailResp)) ∧
    (sendFailResp.success = false ∧ sendFailResp.message ≠ [] ∧
     recvFailResp.success = false ∧ recvFailResp.message ≠ []) := by
  refine ⟨?_, ?_, ?_, ?_, by decide, by decide, by decide, by decide⟩
  · intro em rest h1
    simp only [send_request]
    rw [h1]
  · intro em1 ss1 em rest h1 h2
    simp only [send_request]
    rw [h1]
    dsimp only
    rw [h2]
  · intro em1 ss1 em2 ss2 h1 h2 h3
    simp only [send_request]
    rw [h1]
    dsimp only
    rw [h2]
    dsimp only
    rcases h3 with h3 | h3 <;> rw [h3]
  · intro em1 ss1 em2 ss2 rs' h1 h2 h3
    subst h3
    simp only [send_request]
    rw [h1]
    dsimp only
    rw [h2]
    dsimp only
    rw [show read_frame wire (NetEv.eof :: rs') = some FrameOut.hdrFail from rfl]

/-- C5 witness: a failing first send yields the synthesized failure
Response with `success = false` and the non-empty message `"Send failed"`. -/
theorem claim5_send_request_failures_witness :
    send_request { type := ReqType.BALANCE, user_id := 42, amount := 0,
                   filename := [], data := [] }
        [SendEv.serr] [] [] = some (SROut.resp sendFailResp)
      ∧ sendFailResp.success = false ∧ sendFailResp.message ≠ [] :=
  ⟨(claim5_send_request_failures
      { type := ReqType.BALANCE, user_id := 42, amount := 0, filename := [], data := [] }
      [SendEv.serr] [] []).1 [] [] (by decide),
   by decide, by decide⟩

/-- C7 counterexample: `"1|x|y"` has two delimiters — fewer than the
Response's three — but decoding does not yield a record with default
trailing fields: `stod("x")` throws `std::invalid_argument` (modelled as
`none`), so an error is signalled. -/
theorem claim7_counterexample : decodeResponse "1|x|y".toList = none := by
  decide

/-- C7 (amended): decoding splits on `'|'` from the left, one field per
split, the final field (`message` for Response, `data` for Request)
absorbing all remaining text including embedded delimiters; an input with
fewer delimiters than fields yields a record whose unreached trailing
fields keep their defaults — provided the balance field, when reached,
parses as a number (otherwise `stod` raises, per the counterexample).
The Request decode (`parseRequest`, modelled from the spec) is total. -/
theorem claim7_decode_split_discipline :
    (∀ f1 f2 f3 r : List Char, ∀ b : Int,
      '|' ∉ f1 → '|' ∉ f2 → '|' ∉ f3 → stodM f2 = some b →
      decodeResponse (f1 ++ '|' :: (f2 ++ '|' :: (f3 ++ '|' :: r)))
        = some { success := f1 = ['1'], balance := b, data := f3, message := r }) ∧
    (∀ s : List Char, '|' ∉ s →
      decodeResponse s
        = some { success := false, balance := 0, data := [], message := [] }) ∧
    (∀ f1 r1 : List Char, '|' ∉ f1 → '|' ∉ r1 →
      decodeResponse (f1 ++ '|' :: r1)
        = some { success := f1 = ['1'], balance := 0, data := [], message := [] }) ∧
    (∀ f1 f2 r2 : List Char, ∀ b : Int,
      '|' ∉ f1 → '|' ∉ f2 → '|' ∉ r2 → stodM f2 = some b →
      decodeResponse (f1 ++ '|' :: (f2 ++ '|' :: r2))
        = some { success := f1 = ['1'], balance := b, data := [], message := [] }) ∧
    (∀ g1 g2 g3 g4 r : List Char,
      '|' ∉ g1 → '|' ∉ g2 → '|' ∉ g3 → '|' ∉ g4 →
      parseRequest (g1 ++ '|' :: (g2 ++ '|' :: (g3 ++ '|' :: (g4 ++ '|' :: r))))
        = { type := typeOfInt ((stodM g1).getD 0), user_id := (stodM g2).getD 0,
            amount := (stodM g3).getD 0, filename := g4, data := r }) ∧
    (∀ s : List Char, '|' ∉ s →
      parseRequest s
        = { type := ReqType.DEPOSIT, user_id := 0, amount := 0,
            filename := [], data := [] }) := by
  refine ⟨?_, ?_, ?_, ?_, ?_, ?_⟩
  · intro f1 f2 f3 r b h1 h2 h3 hb
    rw [decodeResponse, splitFirst_append _ h1]
    dsimp only
    rw [splitFirst_append _ h2]
    dsimp only
    rw [hb]
    dsimp only
    rw [splitFirst_append _ h3]
  · intro s h
    rw [decodeResponse, splitFirst_not_mem h]
  · intro f1 r1 h1 h2
    rw [decodeResponse, splitFirst_append _ h1]
    dsimp only
    rw [splitFirst_not_mem h2]
  · intro f1 f2 r2 b h1 h2 h3 hb
    rw [decodeResponse, splitFirst_append _ h1]
    dsimp only
    rw [splitFirst_append _ h2]
    dsimp only
    rw [hb]
    dsimp only
    rw [splitFirst_not_mem h3]
  · intro g1 g2 g3 g4 r h1 h2 h3 h4
    rw [parseRequest, splitFirst_append _ h1]
    dsimp only
    rw [splitFirst_append _ h2]
    dsimp only
    rw [splitFirst_append _ h3]
    dsimp only
    rw [splitFirst_append _ h4]
  · intro s h
    rw [parseRequest, splitFirst_not_mem h]

/-- C7 witness: the split discipline at concrete inputs — the message
field absorbs an embedded delimiter, and a delimiter-free input decodes to
the all-default record. -/
theorem claim7_decode_split_discipline_witness :
    decodeResponse (['1'] ++ '|' :: ("23".toList ++ '|' :: ("d".toList ++ '|' :: "m|x".toList)))
      = some { success := true, balance := 23, data := "d".toList, message := "m|x".toList } ∧
    parseRequest "abc".toList
      = { type := ReqType.DEPOSIT, user_id := 0, amount := 0, filename := [], data := [] } := by
  constructor
  · have h := claim7_decode_split_discipline.1 ['1'] "23".toList "d".toList "m|x".toList 23
      (by decide) (by decide) (by decide) (by decide)
    simpa using h
  · exact claim7_decode_split_discipline.2.2.2.2.2 "abc".toList (by decide)

/-- C9: client-side channel construction resolves the host alias
`"localhost"` to the loopback address `127.0.0.1`; any other host is
accepted only as a literal IPv4 address; a failed address parse or a
failed `connect` makes construction fail with `ConnectionSetupError`, and
every successfully constructed channel has a fully resolved address and
cached peer diagnostics (no partially-usable channel). -/
theorem claim9_client_construction :
    (∀ port : Nat, clientConstruct "localhost".toList port true true
        = Except.ok { addr := (127, 0, 0, 1), port := port,
                      peer_ip := "localhost".toList, peer_port := port }) ∧
    (∀ (host : List Char) (port : Nat), host ≠ "localhost".toList → ipv4Parse host = none →
        clientConstruct host port true true = Except.error ChanErr.ConnectionSetupError) ∧
    (∀ (host : List Char) (port : Nat),
        clientConstruct host port true false = Except.error ChanErr.ConnectionSetupError) ∧
    (∀ (host : List Char) (port : Nat) (c : Bool) (r : Channel),
        clientConstruct host port true c = Except.ok r →
        c = true ∧ r.peer_ip = host ∧ r.peer_port = port ∧
        (host = "localhost".toList → r.addr = (127, 0, 0, 1)) ∧
        (host ≠ "localhost".toList → ipv4Parse host = some r.addr)) := by
  have hloop : ipv4Parse ("127.0.0.1".toList) = some (127, 0, 0, 1) := by decide
  have htf : ¬ ((true : Bool) = false) := by decide
  refine ⟨?_, ?_, ?_, ?_⟩
  · intro port
    rfl
  · intro host port hne hparse
    simp only [clientConstruct]
    rw [if_neg htf, if_neg hne, hparse]
  · intro host port
    simp only [clientConstruct]
    rw [if_neg htf]
    by_cases hl : host = "localhost".toList
    · subst hl
      rfl
    · rw [if_neg hl]
      rcases hp : ipv4Parse host with _ | a
      · rfl
      · rfl
  · intro host port c r h
    simp only [clientConstruct] at h
    rw [if_neg htf] at h
    by_cases hl : host = "localhost".toList
    · subst hl
      rw [if_pos rfl, hloop] at h
      dsimp only at h
      cases c
      · rw [if_neg (by decide)] at h
        exact absurd h (by simp)
      · rw [if_pos rfl] at h
        injection h with h2
        rw [← h2]
        exact ⟨rfl, rfl, rfl, fun _ => rfl, fun hne => absurd rfl hne⟩
    · rw [if_neg hl] at h
      rcases hp : ipv4Parse host with _ | a
      · rw [hp] at h
        exact absurd h (by simp)
      · rw [hp] at h
        dsimp only at h
        cases c
        · rw [if_neg (by decide)] at h
          exact absurd h (by simp)
        · rw [if_pos rfl] at h
          injection h with h2
          rw [← h2]
          exact ⟨rfl, rfl, rfl, fun heq => absurd heq hl, fun _ => rfl⟩

/-- C9 witness: `"localhost"` construction succeeds at the loopback, and an
out-of-range literal fails with `ConnectionSetupError`. -/
theorem claim9_client_construction_witness :
    clientConstruct "localhost".toList 9000 true true
      = Except.ok { addr := (127, 0, 0, 1), port := 9000,
                    peer_ip := "localhost".toList, peer_port := 9000 } ∧
    clientConstruct "10.0.0.300".toList 9000 true true
      = Except.error ChanErr.ConnectionSetupError :=
  ⟨claim9_client_construction.1 9000,
   claim9_client_construction.2.1 "10.0.0.300".toList 9000 (by decide) (by decide)⟩

/-- C10: the unchecked `memcpy(message_buf, str.c_str(), str.size())` in
`send_request` and `send_response` writes exactly the indices below the
encoded length: every record whose encoding fits the 1024-byte buffer
stays within bounds, and any longer encoding would write at indices at or
beyond the buffer capacity. -/
theorem claim10_send_copy_bounds (q : Request) (r : Response) :
    ((encodeRequest q).length ≤ MSG_BUF_CAP →
      ∀ i ∈ memcpyIdxs (encodeRequest q).length, i < MSG_BUF_CAP) ∧
    (MSG_BUF_CAP < (encodeRequest q).length →
      ∃ i ∈ memcpyIdxs (encodeRequest q).length, MSG_BUF_CAP ≤ i) ∧
    ((encodeResponse r).length ≤ MSG_BUF_CAP →
      ∀ i ∈ memcpyIdxs (encodeResponse r).length, i < MSG_BUF_CAP) ∧
    (MSG_BUF_CAP < (encodeResponse r).length →
      ∃ i ∈ memcpyIdxs (encodeResponse r).length, MSG_BUF_CAP ≤ i) := by
  refine ⟨?_, ?_, ?_, ?_⟩
  · intro hle i hi
    rw [memcpyIdxs, List.mem_range] at hi
    omega
  · intro hgt
    refine ⟨MSG_BUF_CAP, ?_, le_refl _⟩
    rw [memcpyIdxs, List.mem_range]
    omega
  · intro hle i hi
    rw [memcpyIdxs, List.mem_range] at hi
    omega
  · intro hgt
    refine ⟨MSG_BUF_CAP, ?_, le_refl _⟩
    rw [memcpyIdxs, List.mem_range]
    omega

/-- C10 witness: a short encoding stays in bounds; a Request with 1100
data bytes encodes past the 1024-byte buffer and the copy would reach
index 1024. -/
theorem claim10_send_copy_bounds_witness :
    (0 ∈ memcpyIdxs (encodeRequest ⟨ReqType.BALANCE, 42, 0, [], []⟩).length →
      0 < MSG_BUF_CAP) ∧
    ∃ i ∈ memcpyIdxs (encodeRequest ⟨ReqType.BALANCE, 42, 0, [],
      List.replicate 1100 'a'⟩).length, MSG_BUF_CAP ≤ i := by
  constructor
  · intro h0
    exact (claim10_send_copy_bounds ⟨ReqType.BALANCE, 42, 0, [], []⟩
      ⟨true, 0, [], []⟩).1 (by decide) 0 h0
  · refine (claim10_send_copy_bounds ⟨ReqType.BALANCE, 42, 0, [], List.replicate 1100 'a'⟩
      ⟨true, 0, [], []⟩).2.1 ?_
    rw [encodeRequest]
    simp only [List.length_append, List.length_cons, List.length_replicate, List.length_nil,
      MSG_BUF_CAP]
    omega
